import Mathlib

/-!
Verification development for the squadfinders-bot-gateway message lifecycle
core: a shallow embedding of the message claim/lease/recovery state machine
(the message controller's getPending / create / updateByMessageId paths, the
auto-expiry service, the processing-requeue service, and the canceled-user
cancellation cascade), together with theorems settling the spec's claims
about those operations.

Conventions of the embedding:
- Timestamps are integers in milliseconds since the Unix epoch (JS Date
  semantics: `Date.now()`, `new Date(ms)`); `new Date(0)` is 0.
- Mongo collections are Lean lists of documents; `updateMany` is a `List.map`
  whose per-document step applies the update exactly when the filter matches;
  `findOne` is an existence test over the list; `find().sort().limit()` is
  filter, then sort, then `take`.
- Each store round-trip of the JS code (an awaited Mongo call) is one atomic
  step of the model; interleavings of concurrent requests are modelled by
  sequencing those steps explicitly.
-/

namespace Gateway

/-- The ai_status values appearing in the source (message controller,
auto-expiry service, requeue service, cancellation cascade). -/
inductive AIStatus where
  | pending
  | pending_prefilter
  | processing
  | completed
  | failed
  | expired
  | canceled_by_user
deriving DecidableEq, Repr

/-- Terminal statuses of the lifecycle (spec section 4.1). -/
def AIStatus.isTerminal : AIStatus → Bool
  | .completed => true
  | .failed => true
  | .expired => true
  | .canceled_by_user => true
  | _ => false

/-- A message document. Nested source fields `sender.id`, `sender.username`
and `group.group_id` are flattened to `sender_id`, `sender_username`,
`group_id`. `mid` is the storage-assigned primary key `_id`; `message_id` is
the externally assigned id. `updatedAt` is the storage timestamp used by the
requeue sweep; `expired_at` is stamped by the auto-expiry sweep. -/
structure Msg where
  mid : Nat
  message_id : Nat
  sender_id : Option String
  sender_username : Option String
  group_id : Option String
  message : String
  message_date : Int
  updatedAt : Int
  ai_status : AIStatus
  reason : String
  is_valid : Option Bool
  expired_at : Option Int
deriving DecidableEq, Repr

/-- A player ("listing") document, reduced to the fields the cancellation
cascade touches. -/
structure Player where
  sender_id : Option String
  sender_username : Option String
  active : Bool
deriving DecidableEq, Repr

/-- A canceled-user document (keyed by user_id, optionally with username). -/
structure CanceledUser where
  user_id : String
  username : Option String
deriving DecidableEq, Repr

/-- config.autoExpiry from src/src/config/index.js: AUTO_EXPIRY_ENABLED
(default true) and EXPIRY_MINUTES (default 5). -/
structure AutoExpiryConfig where
  enabled : Bool
  expiryMinutes : Int
deriving DecidableEq, Repr

/-- JS truthiness of an optional string field (undefined and the empty
string are falsy). -/
def truthy : Option String → Bool
  | none => false
  | some s => s ≠ ""

/-- Milliseconds in a minute, as used by every `minutes * 60 * 1000`
expression in the source. -/
def msPerMinute : Int := 60 * 1000

/-- Ordering relation used for `.sort(\x7bmessage_date: 1\x7d)`. -/
def dateLE (a b : Msg) : Prop := a.message_date ≤ b.message_date

instance : DecidableRel dateLE := fun a b =>
  inferInstanceAs (Decidable (a.message_date ≤ b.message_date))

instance : IsTotal Msg dateLE := ⟨fun a b => Int.le_total a.message_date b.message_date⟩

instance : IsTrans Msg dateLE := ⟨fun _ _ _ hab hbc => le_trans hab hbc⟩

/-- Expiry cutoff used by getPending and the auto-expiry service:
`new Date(Date.now() - expiryMinutes * 60 * 1000)`. -/
def expiryCutoff (expiryMinutes now : Int) : Int := now - expiryMinutes * msPerMinute

/-- Per-document effect of getPending's first updateMany (message controller
lines 386-394): filter `ai_status = pending ∧ message_date < expiryTime`,
update `$set \x7b ai_status: expired \x7d` (only ai_status is set). -/
def getPendingExpireStep (cutoff : Int) (m : Msg) : Msg :=
  if m.ai_status = .pending ∧ m.message_date < cutoff then
    { m with ai_status := .expired }
  else m

/-- The expiry side effect at the start of getPending (lines 367-402): runs
only when config.autoExpiry.enabled. -/
def getPendingExpirePhase (cfg : AutoExpiryConfig) (now : Int) (msgs : List Msg) : List Msg :=
  if cfg.enabled then
    msgs.map (getPendingExpireStep (expiryCutoff cfg.expiryMinutes now))
  else msgs

/-- Lower bound used for the candidate query (lines 404-406): the expiry
cutoff when auto-expiry is enabled, `new Date(0)` otherwise. -/
def getPendingThreshold (cfg : AutoExpiryConfig) (now : Int) : Int :=
  if cfg.enabled then expiryCutoff cfg.expiryMinutes now else 0

/-- The candidate find of getPending (lines 409-414):
`find(\x7b ai_status: pending, message_date: \x7b $gte: expiryTime \x7d \x7d)
.sort(\x7b message_date: 1 \x7d).limit(maxLimit)`. -/
def getPendingFind (cfg : AutoExpiryConfig) (now : Int) (maxLimit : Nat)
    (msgs : List Msg) : List Msg :=
  ((msgs.filter (fun m =>
      m.ai_status = .pending ∧ getPendingThreshold cfg now ≤ m.message_date)).insertionSort
    dateLE).take maxLimit

/-- Per-document effect of getPending's second updateMany (lines 434-437):
filter `_id ∈ ids`, update `$set \x7b ai_status: processing \x7d`. -/
def markProcessingStep (ids : List Nat) (m : Msg) : Msg :=
  if m.mid ∈ ids then { m with ai_status := .processing } else m

/-- getPending's claim updateMany over the whole collection. -/
def markProcessing (ids : List Nat) (msgs : List Msg) : List Msg :=
  msgs.map (markProcessingStep ids)

/-- Result of a getPending call: the JSON `data` array and the collection
state after the call. -/
structure ClaimResult where
  returned : List Msg
  state : List Msg
deriving DecidableEq, Repr

/-- messageController.getPending (message controller lines 356-454), run to
completion with no interleaved writers: cap the limit at 100, run the expiry
side effect, find up to maxLimit fresh pending messages oldest-first, mark
them processing, and return them with ai_status overwritten to processing
(lines 440-442). An empty candidate set simply yields an empty array. -/
def getPending (cfg : AutoExpiryConfig) (now : Int) (limit : Nat)
    (msgs : List Msg) : ClaimResult :=
  let maxLimit := min limit 100
  let s1 := getPendingExpirePhase cfg now msgs
  let sel := getPendingFind cfg now maxLimit s1
  { returned := sel.map (fun m => { m with ai_status := .processing })
    state := markProcessing (sel.map (fun m => m.mid)) s1 }

/-- JS `String.prototype.includes`: true when pat occurs as a contiguous
substring of s. -/
def jsIncludes (s pat : String) : Bool :=
  s.toList.tails.any (fun t => pat.toList.isPrefixOf t)

/-- determineExpireReason (src/src/services/autoExpiry.js lines 13-29):
processing maps to expired_processing_timeout; pending maps to
expired_after_pending when the previous reason is non-empty and contains
"requeue", else expired_pending_timeout; anything else falls through to
expired_timeout. -/
def determineExpireReason (m : Msg) : String :=
  if m.ai_status = .processing then "expired_processing_timeout"
  else if m.ai_status = .pending then
    if m.reason ≠ "" ∧ jsIncludes m.reason "requeue" then "expired_after_pending"
    else "expired_pending_timeout"
  else "expired_timeout"

/-- Per-document effect of one auto-expiry sweep (autoExpiry.js lines
93-143): documents matching `ai_status ∈ [pending, processing] ∧
message_date < expiryTime` get `$set \x7b ai_status: expired, reason:
determineExpireReason(doc), expired_at: now \x7d`; others are untouched. -/
def expireStep (cutoff now : Int) (m : Msg) : Msg :=
  if (m.ai_status = .pending ∨ m.ai_status = .processing) ∧ m.message_date < cutoff then
    { m with ai_status := .expired, reason := determineExpireReason m,
             expired_at := some now }
  else m

/-- autoExpiryService.expireOldMessages run to completion with no
interleaved writers. The source pages through the candidates in batches of
1000 (find sorted by message_date, then bulkWrite of per-document updateOne
ops keyed by _id); executed sequentially, every document matching the filter
is updated exactly once from its own snapshot, which is this map. Service-
local state: the sweep runs only when enabled. -/
def expireOldMessages (enabled : Bool) (expiryMinutes now : Int)
    (msgs : List Msg) : List Msg :=
  if enabled then
    msgs.map (expireStep (expiryCutoff expiryMinutes now) now)
  else msgs

/-- Per-document effect of the requeue sweep's updateMany
(src/src/services/requeueProcessing.js lines 14-16): filter
`ai_status = processing ∧ updatedAt < cutoff`, update `$set \x7b ai_status:
pending, reason: "requeued_from_processing_timeout" \x7d`. -/
def requeueStep (cutoff : Int) (m : Msg) : Msg :=
  if m.ai_status = .processing ∧ m.updatedAt < cutoff then
    { m with ai_status := .pending, reason := "requeued_from_processing_timeout" }
  else m

/-- requeueProcessing.runOnce (lines 10-26): one sweep with
`cutoff = now - timeoutMinutes * 60 * 1000`. -/
def requeueRunOnce (timeoutMinutes now : Int) (msgs : List Msg) : List Msg :=
  msgs.map (requeueStep (expiryCutoff timeoutMinutes now))

/-- Sender-identity disjunction built by the cancellation cascade
(canceled-user controller lines 110-124): one clause per provided identity
field; user_id is always provided on this path (the controller rejects the
request when it is absent), username only when truthy in the request body. -/
def senderMatches (user_id : String) (username : Option String) (sid sun : Option String) : Prop :=
  sid = some user_id ∨ (truthy username ∧ sun = username)

instance (user_id : String) (username : Option String) (sid sun : Option String) :
    Decidable (senderMatches user_id username sid sun) :=
  inferInstanceAs (Decidable (_ ∨ _))

/-- Per-document effect of the cascade's message updateMany (canceled-user
controller lines 109-130): filter `ai_status ∈ [pending, pending_prefilter]
∧ (sender.id = user_id ∨ sender.username = username)`, update
`$set \x7b ai_status: canceled_by_user \x7d`. -/
def cascadeMsgStep (user_id : String) (username : Option String) (m : Msg) : Msg :=
  if (m.ai_status = .pending ∨ m.ai_status = .pending_prefilter) ∧
      senderMatches user_id username m.sender_id m.sender_username then
    { m with ai_status := .canceled_by_user }
  else m

/-- Per-document effect of the cascade's player updateMany (lines 132-139):
filter is the sender-identity disjunction alone, update
`$set \x7b active: false \x7d`. -/
def cascadePlayerStep (user_id : String) (username : Option String) (p : Player) : Player :=
  if senderMatches user_id username p.sender_id p.sender_username then
    { p with active := false }
  else p

/-- The collections the lifecycle core mutates. -/
structure GatewayState where
  canceledUsers : List CanceledUser
  messages : List Msg
  players : List Player
deriving DecidableEq, Repr

/-- canceledUserController.create (canceled-user controller lines 82-156):
if a CanceledUser with this user_id already exists the call returns 409
without touching anything; otherwise it records the CanceledUser and runs
the two bulk cascade updates over messages and players. -/
def cancelCreate (user_id : String) (username : Option String)
    (s : GatewayState) : GatewayState :=
  if s.canceledUsers.any (fun u => u.user_id = user_id) then s
  else
    { canceledUsers := ⟨user_id, username⟩ :: s.canceledUsers
      messages := s.messages.map (cascadeMsgStep user_id username)
      players := s.players.map (cascadePlayerStep user_id username) }

/-- Update document for the worker's terminal write: the req.body fields of
updateByMessageId that the lifecycle cares about; absent fields leave the
document's values in place. -/
structure MsgUpdate where
  ai_status : Option AIStatus
  reason : Option String
  is_valid : Option Bool
deriving DecidableEq, Repr

/-- Application of an update body to a document, as
`findOneAndUpdate(filter, req.body)` does with a plain field object. -/
def applyUpdate (u : MsgUpdate) (m : Msg) : Msg :=
  { m with
    ai_status := u.ai_status.getD m.ai_status
    reason := u.reason.getD m.reason
    is_valid := match u.is_valid with | some v => some v | none => m.is_valid }

/-- messageController.updateByMessageId (message controller lines 568-586):
`findOneAndUpdate(\x7b message_id \x7d, req.body, \x7b new: true \x7d)` — the first
document whose message_id matches is updated unconditionally; the updated
document is returned, or none (a 404) when no document matches. -/
def updateByMessageId (message_id : Nat) (body : MsgUpdate) :
    List Msg → Option Msg × List Msg
  | [] => (none, [])
  | m :: rest =>
    if m.message_id = message_id then
      (some (applyUpdate body m), applyUpdate body m :: rest)
    else
      let r := updateByMessageId message_id body rest
      (r.1, m :: r.2)

/-- Request body of messageController.create, flattened like Msg. -/
structure CreateReq where
  message_id : Nat
  sender_id : Option String
  sender_username : Option String
  group_id : Option String
  message : Option String
  message_date : Int
deriving DecidableEq, Repr

/-- Outcome of messageController.create: 409 duplicate rejection, or the
created document. -/
inductive CreateOutcome where
  | duplicate
  | created (m : Msg)
deriving DecidableEq, Repr

/-- The spam findOne of messageController.create (message controller lines
492-497): an existing message of the same sender, same group, identical
content, with message_date ≥ now - spamWindowMinutes. -/
def isSpamDuplicate (req : CreateReq) (windowStart : Int) (msgs : List Msg) : Bool :=
  msgs.any (fun m =>
    m.sender_id = req.sender_id ∧ m.group_id = req.group_id ∧
      some m.message = req.message ∧ windowStart ≤ m.message_date)

/-- Modelled from the spec: the Message schema (src/src/models/Message.js is
not part of the provided sources) — a newly ingested document starts with
`status=pending`, empty diagnostics, and a storage key; spec sections 3 and
4.1 (created at ingestion with status=pending). -/
def newMsgFromReq (req : CreateReq) (mid : Nat) (now : Int) : Msg :=
  { mid := mid
    message_id := req.message_id
    sender_id := req.sender_id
    sender_username := req.sender_username
    group_id := req.group_id
    message := req.message.getD ""
    message_date := req.message_date
    updatedAt := now
    ai_status := .pending
    reason := ""
    is_valid := none
    expired_at := none }

/-- messageController.create (message controller lines 474-565): spam check
first — it runs only when sender.id, group.group_id and message are all
truthy and the configured window `max(windowMinutes, 0)` is positive, and
rejects with 409 when a duplicate exists in the trailing window; then the
canceled-sender override flips the new document's ai_status to
canceled_by_user when a CanceledUser matches sender.id or sender.username;
finally the document is inserted. -/
def messageCreate (windowMinutes : Int) (now : Int) (req : CreateReq)
    (mid : Nat) (s : GatewayState) : CreateOutcome × GatewayState :=
  let spamWindowMinutes := max windowMinutes 0
  if truthy req.sender_id ∧ truthy req.group_id ∧ truthy req.message ∧
      0 < spamWindowMinutes ∧
      isSpamDuplicate req (now - spamWindowMinutes * msPerMinute) s.messages then
    (.duplicate, s)
  else
    let base := newMsgFromReq req mid now
    let canceled :=
      (truthy req.sender_id ∨ truthy req.sender_username) ∧
        s.canceledUsers.any (fun u =>
          (truthy req.sender_id ∧ some u.user_id = req.sender_id) ∨
          (truthy req.sender_username ∧ u.username = req.sender_username))
    let doc := if canceled then { base with ai_status := .canceled_by_user } else base
    (.created doc, { s with messages := s.messages ++ [doc] })

/-- A schedule of two concurrent getPending calls in which both calls run
their candidate find before either runs its claim updateMany. The
interleaving is possible because the find (message controller line 409) and
the updateMany (line 434) are separate awaited store calls with no
conditional filter linking them: the updateMany matches on `_id` alone. Each
call returns its own find result; the two writes land afterwards in call
order. -/
def claimRaceSchedule (cfg : AutoExpiryConfig) (now : Int) (limitA limitB : Nat)
    (msgs : List Msg) : List Msg × List Msg × List Msg :=
  let s1 := getPendingExpirePhase cfg now msgs
  let selA := getPendingFind cfg now (min limitA 100) s1
  let s2 := getPendingExpirePhase cfg now s1
  let selB := getPendingFind cfg now (min limitB 100) s2
  let s3 := markProcessing (selA.map (fun m => m.mid)) s2
  let s4 := markProcessing (selB.map (fun m => m.mid)) s3
  (selA.map (fun m => { m with ai_status := AIStatus.processing }),
   selB.map (fun m => { m with ai_status := AIStatus.processing }),
   s4)

/-- A fresh pending message used to exhibit the double-claim race. -/
def raceMsg : Msg :=
  { mid := 1, message_id := 77, sender_id := some "u1",
    sender_username := some "alice", group_id := some "g1", message := "lfg squad",
    message_date := 999000, updatedAt := 999000, ai_status := .pending,
    reason := "", is_valid := none, expired_at := none }

/-- A message stuck in processing past the lease timeout. -/
def sampleStuck : Msg :=
  { mid := 2, message_id := 11, sender_id := some "u2",
    sender_username := some "bob", group_id := some "g1", message := "need one",
    message_date := 100000, updatedAt := 100000, ai_status := .processing,
    reason := "", is_valid := none, expired_at := none }

/-- An in-flight (processing) message owned by user u1. -/
def cascadeVictim : Msg :=
  { mid := 3, message_id := 21, sender_id := some "u1",
    sender_username := some "alice", group_id := some "g1", message := "hey",
    message_date := 500000, updatedAt := 900000, ai_status := .processing,
    reason := "", is_valid := none, expired_at := none }

/-- A completed (terminal) message later targeted by an update. -/
def doneMsg : Msg :=
  { mid := 5, message_id := 7, sender_id := some "u4",
    sender_username := some "carol", group_id := some "g3", message := "done",
    message_date := 1000, updatedAt := 2000, ai_status := .completed,
    reason := "", is_valid := some true, expired_at := none }

/-- A message that was requeued back to pending after a lease timeout, for
which a worker later reports an outcome. -/
def lateMsg : Msg :=
  { mid := 4, message_id := 42, sender_id := some "u3",
    sender_username := none, group_id := some "g2", message := "late",
    message_date := 100, updatedAt := 200, ai_status := .pending,
    reason := "requeued_from_processing_timeout", is_valid := none,
    expired_at := none }

end Gateway

namespace Gateway

/-- C1: the spec's no-double-claim property fails on the code's
find-then-updateMany claim path. With a single fresh pending message
(message_id 77) and two concurrent getPending(limit 1) calls whose finds
both run before either updateMany, both calls return message 77, so the
union of the returned batches duplicates a message_id. -/
theorem double_claim_race :
    ((claimRaceSchedule ⟨true, 5⟩ 1000000 1 1 [raceMsg]).1.map
        (fun m => m.message_id) = [77]) ∧
    ((claimRaceSchedule ⟨true, 5⟩ 1000000 1 1 [raceMsg]).2.1.map
        (fun m => m.message_id) = [77]) ∧
    ¬ (((claimRaceSchedule ⟨true, 5⟩ 1000000 1 1 [raceMsg]).1 ++
        (claimRaceSchedule ⟨true, 5⟩ 1000000 1 1 [raceMsg]).2.1).map
          (fun m => m.message_id)).Nodup := by decide

/-- C6: one requeue sweep sets ai_status back to pending and stamps the
uniform reason "requeued_from_processing_timeout" exactly on the messages
whose status is processing and whose updatedAt is older than
now - timeoutMinutes, and leaves every other message unchanged. -/
theorem requeue_sweep_exact (timeoutMinutes now : Int) (msgs : List Msg) :
    (requeueRunOnce timeoutMinutes now msgs).length = msgs.length ∧
    ∀ i (h : i < msgs.length),
      (requeueRunOnce timeoutMinutes now msgs).get
          ⟨i, by simpa [requeueRunOnce] using h⟩ =
        (if (msgs.get ⟨i, h⟩).ai_status = AIStatus.processing ∧
            (msgs.get ⟨i, h⟩).updatedAt < now - timeoutMinutes * msPerMinute then
          { msgs.get ⟨i, h⟩ with
            ai_status := AIStatus.pending
            reason := "requeued_from_processing_timeout" }
        else msgs.get ⟨i, h⟩) := by
  refine ⟨by simp [requeueRunOnce], fun i h => ?_⟩
  simp [requeueRunOnce, List.get_eq_getElem, List.getElem_map, requeueStep, expiryCutoff]

/-- Witness for C6 at a concrete stuck message. -/
theorem requeue_sweep_exact_witness :
    (requeueRunOnce 5 1000000 [sampleStuck]).get ⟨0, by decide⟩ =
      { sampleStuck with
        ai_status := AIStatus.pending
        reason := "requeued_from_processing_timeout" } := by
  have h := (requeue_sweep_exact 5 1000000 [sampleStuck]).2 0 (by decide)
  simpa using h

/-- C8: canceledUserController.create is idempotent on the whole state: the
second call finds the CanceledUser record written by the first and returns
409 before touching any message or player. -/
theorem cancel_idempotent (user_id : String) (username : Option String)
    (s : GatewayState) :
    cancelCreate user_id username (cancelCreate user_id username s) =
      cancelCreate user_id username s := by
  unfold cancelCreate
  by_cases hc : s.canceledUsers.any (fun u => u.user_id = user_id)
  · simp [hc]
  · simp [hc]

/-- C10: when auto-expiry is enabled, getPending first bulk-expires every
pending message older than now - expiryMinutes, setting only ai_status (the
record update keeps reason and every other field), and only then selects and
claims candidates: its final state is the claim updateMany applied to the
expiry phase's output. -/
theorem getPending_expiry_side_effect (cfg : AutoExpiryConfig) (now : Int)
    (limit : Nat) (msgs : List Msg) (hen : cfg.enabled = true) :
    ((getPending cfg now limit msgs).state =
      markProcessing
        ((getPendingFind cfg now (min limit 100)
            (getPendingExpirePhase cfg now msgs)).map (fun m => m.mid))
        (getPendingExpirePhase cfg now msgs)) ∧
    (getPendingExpirePhase cfg now msgs).length = msgs.length ∧
    ∀ i (h : i < msgs.length),
      (getPendingExpirePhase cfg now msgs).get
          ⟨i, by simpa [getPendingExpirePhase, hen] using h⟩ =
        (if (msgs.get ⟨i, h⟩).ai_status = AIStatus.pending ∧
            (msgs.get ⟨i, h⟩).message_date < now - cfg.expiryMinutes * msPerMinute then
          { msgs.get ⟨i, h⟩ with ai_status := AIStatus.expired }
        else msgs.get ⟨i, h⟩) := by
  refine ⟨rfl, by simp [getPendingExpirePhase, hen], fun i h => ?_⟩
  simp [getPendingExpirePhase, hen, List.get_eq_getElem, List.getElem_map,
    getPendingExpireStep, expiryCutoff]

/-- Witness for C10: with auto-expiry on, a stale pending message is expired
by the side effect with its reason untouched. -/
theorem getPending_expiry_side_effect_witness :
    (getPendingExpirePhase ⟨true, 5⟩ 1000000 [sampleStuck, raceMsg]).get ⟨1, by decide⟩ =
      raceMsg := by
  have h := (getPending_expiry_side_effect ⟨true, 5⟩ 1000000 50
    [sampleStuck, raceMsg] rfl).2.2 1 (by decide)
  simpa using h

/-- Pointwise characterisation of the auto-expiry update: under the sweep's
filter the catch-all expired_timeout branch of determineExpireReason is
unreachable, so the stamped reason is the three-way split of the spec. -/
theorem expireStep_spec (cutoff now : Int) (m : Msg) :
    expireStep cutoff now m =
      (if (m.ai_status = AIStatus.pending ∨ m.ai_status = AIStatus.processing) ∧
          m.message_date < cutoff then
        { m with
          ai_status := AIStatus.expired
          reason :=
            if m.ai_status = AIStatus.processing then "expired_processing_timeout"
            else if m.reason ≠ "" ∧ jsIncludes m.reason "requeue" then
              "expired_after_pending"
            else "expired_pending_timeout"
          expired_at := some now }
      else m) := by
  rcases h1 : m.ai_status <;>
    simp [expireStep, determineExpireReason, h1]

/-- C5: one enabled auto-expiry sweep transitions exactly the messages with
status pending or processing and message_date older than now - expiry_after
to expired, stamping a per-document reason derived from the prior state:
expired_processing_timeout for a processing message,
expired_after_pending for a pending message whose stored reason records a
previous requeue (the code's test: a non-empty reason containing "requeue",
which is what the requeue sweep stamps), and expired_pending_timeout for a
pending message with no recorded requeue; every other message is left
unchanged. -/
theorem expiry_sweep_exact (expiryMinutes now : Int) (msgs : List Msg) :
    (expireOldMessages true expiryMinutes now msgs).length = msgs.length ∧
    ∀ i (h : i < msgs.length),
      (expireOldMessages true expiryMinutes now msgs).get
          ⟨i, by simpa [expireOldMessages] using h⟩ =
        (if ((msgs.get ⟨i, h⟩).ai_status = AIStatus.pending ∨
             (msgs.get ⟨i, h⟩).ai_status = AIStatus.processing) ∧
            (msgs.get ⟨i, h⟩).message_date < now - expiryMinutes * msPerMinute then
          { msgs.get ⟨i, h⟩ with
            ai_status := AIStatus.expired
            reason :=
              if (msgs.get ⟨i, h⟩).ai_status = AIStatus.processing then
                "expired_processing_timeout"
              else if (msgs.get ⟨i, h⟩).reason ≠ "" ∧
                  jsIncludes (msgs.get ⟨i, h⟩).reason "requeue" then
                "expired_after_pending"
              else "expired_pending_timeout"
            expired_at := some now }
        else msgs.get ⟨i, h⟩) := by
  refine ⟨by simp [expireOldMessages], fun i h => ?_⟩
  have hstep : (expireOldMessages true expiryMinutes now msgs).get
      ⟨i, by simpa [expireOldMessages] using h⟩ =
        expireStep (expiryCutoff expiryMinutes now) now (msgs.get ⟨i, h⟩) := by
    simp [expireOldMessages, List.get_eq_getElem, List.getElem_map]
  rw [hstep, expireStep_spec, expiryCutoff]

/-- Witness for C5: a stale requeued-then-pending message is expired with
reason expired_after_pending. -/
theorem expiry_sweep_exact_witness :
    (expireOldMessages true 5 1000000 [lateMsg]).get ⟨0, by decide⟩ =
      { lateMsg with
        ai_status := AIStatus.expired
        reason := "expired_after_pending"
        expired_at := some 1000000 } := by
  have h := (expiry_sweep_exact 5 1000000 [lateMsg]).2 0 (by decide)
  rw [h]
  decide

/-- C2 counterexample: cascadeVictim is a processing message of user u1, yet
the cancellation cascade leaves it in processing — the code's message filter
is ai_status ∈ [pending, pending_prefilter], which does not include
processing, so the claim's status set \x7bpending, processing\x7d is wrong. -/
theorem cancel_cascade_processing_untouched :
    ((cancelCreate "u1" (some "alice")
        ⟨[], [cascadeVictim], []⟩).messages.map (fun m => m.ai_status) =
      [AIStatus.processing]) ∧
    AIStatus.processing ≠ AIStatus.canceled_by_user := by decide

/-- C2 amended: Cancel performs two bulk conditional updates: it sets
canceled_by_user on every message from that sender (matched by sender id or
username) whose current status is pending or pending_prefilter (not
processing), leaving messages in any other status untouched, and it sets
active=false on every listing (player) record for that sender. -/
theorem cancel_cascade_exact (user_id : String) (username : Option String)
    (s : GatewayState)
    (hnew : s.canceledUsers.any (fun u => u.user_id = user_id) = false) :
    (cancelCreate user_id username s).messages.length = s.messages.length ∧
    (∀ i (h : i < s.messages.length),
      (cancelCreate user_id username s).messages.get
          ⟨i, by simpa [cancelCreate, hnew] using h⟩ =
        (if ((s.messages.get ⟨i, h⟩).ai_status = AIStatus.pending ∨
             (s.messages.get ⟨i, h⟩).ai_status = AIStatus.pending_prefilter) ∧
            ((s.messages.get ⟨i, h⟩).sender_id = some user_id ∨
             (truthy username ∧ (s.messages.get ⟨i, h⟩).sender_username = username)) then
          { s.messages.get ⟨i, h⟩ with ai_status := AIStatus.canceled_by_user }
        else s.messages.get ⟨i, h⟩)) ∧
    (cancelCreate user_id username s).players.length = s.players.length ∧
    (∀ j (hj : j < s.players.length),
      (cancelCreate user_id username s).players.get
          ⟨j, by simpa [cancelCreate, hnew] using hj⟩ =
        (if (s.players.get ⟨j, hj⟩).sender_id = some user_id ∨
            (truthy username ∧ (s.players.get ⟨j, hj⟩).sender_username = username) then
          { s.players.get ⟨j, hj⟩ with active := false }
        else s.players.get ⟨j, hj⟩)) := by
  refine ⟨by simp [cancelCreate, hnew], fun i h => ?_, by simp [cancelCreate, hnew],
    fun j hj => ?_⟩
  · simp [cancelCreate, hnew, List.get_eq_getElem, List.getElem_map,
      cascadeMsgStep, senderMatches]
  · simp [cancelCreate, hnew, List.get_eq_getElem, List.getElem_map,
      cascadePlayerStep, senderMatches]

/-- Witness for C2 amended: a pending message of the canceled sender is
flipped to canceled_by_user by the cascade. -/
theorem cancel_cascade_exact_witness :
    (cancelCreate "u1" (some "alice")
        ⟨[], [raceMsg], [⟨some "u1", some "alice", true⟩]⟩).messages.get ⟨0, by decide⟩ =
      { raceMsg with ai_status := AIStatus.canceled_by_user } := by
  have h := (cancel_cascade_exact "u1" (some "alice")
    ⟨[], [raceMsg], [⟨some "u1", some "alice", true⟩]⟩ (by decide)).2.1 0 (by decide)
  rw [h]
  decide

/-- C3 counterexample: lateMsg was requeued back to pending after a lease
timeout, yet a late completed outcome report through updateByMessageId is
applied anyway, overriding the newer pending state. -/
theorem late_outcome_applied :
    lateMsg.ai_status ≠ AIStatus.processing ∧
    ((updateByMessageId 42 ⟨some AIStatus.completed, none, some true⟩
        [lateMsg]).2.map (fun m => m.ai_status) = [AIStatus.completed]) := by decide

/-- C3 amended: the worker's terminal write (updateByMessageId) filters on
message_id alone: whatever the current status of the first matching document
(processing or not), the update body is applied to it and the updated
document is returned, so a late outcome report does override the newer
state; only an unknown message_id is rejected with a 404. -/
theorem update_by_message_id_unconditional (message_id : Nat) (body : MsgUpdate)
    (msgs : List Msg) (m : Msg)
    (hfind : msgs.find? (fun x => x.message_id = message_id) = some m) :
    (updateByMessageId message_id body msgs).1 = some (applyUpdate body m) ∧
    ∃ l1 l2, msgs = l1 ++ m :: l2 ∧
      (updateByMessageId message_id body msgs).2 = l1 ++ applyUpdate body m :: l2 := by
  induction msgs with
  | nil => simp at hfind
  | cons a l ih =>
    by_cases ha : a.message_id = message_id
    · rw [List.find?_cons_of_pos _ (by simpa using ha)] at hfind
      obtain rfl : a = m := by simpa using hfind
      refine ⟨?_, [], l, by simp, ?_⟩ <;> simp [updateByMessageId, ha]
    · rw [List.find?_cons_of_neg _ (by simpa using ha)] at hfind
      obtain ⟨h1, l1, l2, hl, h2⟩ := ih hfind
      exact ⟨by simp [updateByMessageId, ha, h1],
        a :: l1, l2, by simp [hl], by simp [updateByMessageId, ha, h2]⟩

/-- Eligibility for the claim find is unchanged by getPending's expiry side
effect: with auto-expiry enabled the side effect rewrites exactly the
pending messages older than the cutoff, and the find's lower bound is that
same cutoff, so no eligible candidate is touched and no touched message
stays eligible. -/
theorem filter_eligible_expirePhase (cfg : AutoExpiryConfig) (now : Int)
    (msgs : List Msg) (hen : cfg.enabled = true) :
    (getPendingExpirePhase cfg now msgs).filter
        (fun m => decide (m.ai_status = AIStatus.pending ∧
          getPendingThreshold cfg now ≤ m.message_date)) =
      msgs.filter
        (fun m => decide (m.ai_status = AIStatus.pending ∧
          getPendingThreshold cfg now ≤ m.message_date)) := by
  have hthr : getPendingThreshold cfg now = expiryCutoff cfg.expiryMinutes now := by
    simp [getPendingThreshold, hen]
  simp only [getPendingExpirePhase, hen, if_true]
  induction msgs with
  | nil => simp
  | cons a l ih =>
    rw [List.map_cons, List.filter_cons, List.filter_cons]
    by_cases hc : a.ai_status = AIStatus.pending ∧
        a.message_date < expiryCutoff cfg.expiryMinutes now
    · have h1 : getPendingExpireStep (expiryCutoff cfg.expiryMinutes now) a =
          { a with ai_status := AIStatus.expired } := by
        simp [getPendingExpireStep, hc]
      have h2 : ¬ (getPendingThreshold cfg now ≤ a.message_date) := by
        rw [hthr]
        exact not_le.mpr hc.2
      rw [h1, if_neg (by simp), if_neg (by simp [h2]), ih]
    · have h1 : getPendingExpireStep (expiryCutoff cfg.expiryMinutes now) a = a := by
        simp [getPendingExpireStep, hc]
      rw [h1, ih]

/-- C4: with auto-expiry enabled, getPending returns
min(min(limit, 100), number of eligible messages) messages; every returned
message is an eligible message of the collection (status pending and
message_date ≥ now - expiry) handed back with status processing; the batch
is ordered oldest message_date first; every document of the resulting state
whose _id was handed out is in processing; and with no eligible pending work
the result is simply the empty batch. -/
theorem claim_contract (cfg : AutoExpiryConfig) (now : Int) (limit : Nat)
    (msgs : List Msg) (hen : cfg.enabled = true) :
    ((getPending cfg now limit msgs).returned.length =
      min (min limit 100)
        (msgs.filter (fun m => m.ai_status = AIStatus.pending ∧
          now - cfg.expiryMinutes * msPerMinute ≤ m.message_date)).length) ∧
    (∀ m ∈ (getPending cfg now limit msgs).returned,
      m.ai_status = AIStatus.processing ∧
      ∃ m0 ∈ msgs, m0.ai_status = AIStatus.pending ∧
        now - cfg.expiryMinutes * msPerMinute ≤ m0.message_date ∧
        m = { m0 with ai_status := AIStatus.processing }) ∧
    List.Sorted dateLE (getPending cfg now limit msgs).returned ∧
    (∀ x ∈ (getPending cfg now limit msgs).state,
      x.mid ∈ ((getPending cfg now limit msgs).returned.map (fun m => m.mid)) →
        x.ai_status = AIStatus.processing) ∧
    ((msgs.filter (fun m => m.ai_status = AIStatus.pending ∧
        now - cfg.expiryMinutes * msPerMinute ≤ m.message_date)) = [] →
      (getPending cfg now limit msgs).returned = []) := by
  have hthr : getPendingThreshold cfg now = now - cfg.expiryMinutes * msPerMinute := by
    simp [getPendingThreshold, hen, expiryCutoff]
  simp only [← hthr]
  have key : (getPending cfg now limit msgs).returned =
      (((msgs.filter (fun m => decide (m.ai_status = AIStatus.pending ∧
          getPendingThreshold cfg now ≤ m.message_date))).insertionSort dateLE).take
        (min limit 100)).map (fun m => { m with ai_status := AIStatus.processing }) := by
    simp only [getPending, getPendingFind]
    rw [filter_eligible_expirePhase cfg now msgs hen]
  refine ⟨?_, ?_, ?_, ?_, ?_⟩
  · rw [key]
    simp [List.length_take, List.length_insertionSort]
  · intro m hm
    rw [key] at hm
    obtain ⟨m0, hm0, rfl⟩ := List.mem_map.mp hm
    have hmem : m0 ∈ (msgs.filter (fun m => decide (m.ai_status = AIStatus.pending ∧
        getPendingThreshold cfg now ≤ m.message_date))) :=
      (List.perm_insertionSort dateLE _).subset (List.take_subset _ _ hm0)
    obtain ⟨hin, hprop⟩ := List.mem_filter.mp hmem
    have hp := of_decide_eq_true hprop
    exact ⟨rfl, m0, hin, hp.1, hp.2, rfl⟩
  · rw [key]
    exact List.Pairwise.map (R := dateLE) (S := dateLE) _
      (fun a b h => by simpa [dateLE] using h)
      (List.Pairwise.sublist (List.take_sublist _ _)
        (List.sorted_insertionSort dateLE _))
  · intro x hx hmid
    have hids : (getPending cfg now limit msgs).returned.map (fun m => m.mid) =
        (getPendingFind cfg now (min limit 100)
          (getPendingExpirePhase cfg now msgs)).map (fun m => m.mid) := by
      simp [getPending, List.map_map]
    rw [hids] at hmid
    simp only [getPending, markProcessing] at hx
    obtain ⟨y, _, rfl⟩ := List.mem_map.mp hx
    by_cases hy : y.mid ∈ (getPendingFind cfg now (min limit 100)
        (getPendingExpirePhase cfg now msgs)).map (fun m => m.mid)
    · simp [markProcessingStep, hy]
    · rw [show markProcessingStep ((getPendingFind cfg now (min limit 100)
          (getPendingExpirePhase cfg now msgs)).map (fun m => m.mid)) y = y from
        by simp [markProcessingStep, hy]] at hmid ⊢
      exact absurd hmid hy
  · intro hfe
    rw [key, hfe]
    simp [List.insertionSort]

/-- Witness for C4 at a one-message collection with auto-expiry enabled. -/
theorem claim_contract_witness :
    (((getPending ⟨true, 5⟩ 1000000 3 [raceMsg]).returned.length =
      min (min 3 100)
        ([raceMsg].filter (fun m => m.ai_status = AIStatus.pending ∧
          (1000000 : Int) - (5 : Int) * msPerMinute ≤ m.message_date)).length) ∧
    (∀ m ∈ (getPending ⟨true, 5⟩ 1000000 3 [raceMsg]).returned,
      m.ai_status = AIStatus.processing ∧
      ∃ m0 ∈ [raceMsg], m0.ai_status = AIStatus.pending ∧
        (1000000 : Int) - (5 : Int) * msPerMinute ≤ m0.message_date ∧
        m = { m0 with ai_status := AIStatus.processing }) ∧
    List.Sorted dateLE (getPending ⟨true, 5⟩ 1000000 3 [raceMsg]).returned ∧
    (∀ x ∈ (getPending ⟨true, 5⟩ 1000000 3 [raceMsg]).state,
      x.mid ∈ ((getPending ⟨true, 5⟩ 1000000 3 [raceMsg]).returned.map
          (fun m => m.mid)) →
        x.ai_status = AIStatus.processing) ∧
    (([raceMsg].filter (fun m => m.ai_status = AIStatus.pending ∧
        (1000000 : Int) - (5 : Int) * msPerMinute ≤ m.message_date)) = [] →
      (getPending ⟨true, 5⟩ 1000000 3 [raceMsg]).returned = [])) :=
  claim_contract ⟨true, 5⟩ 1000000 3 [raceMsg] rfl

/-- C9: with a positive spam window and truthy sender id, group id and
content, messageController.create rejects the submission with the duplicate
error exactly when an existing message from the same sender, in the same
group, with identical content has message_date within the trailing window
(message_date ≥ now - window); otherwise ingestion proceeds and the new
document is appended to the collection. -/
theorem ingest_duplicate_iff (windowMinutes now : Int) (req : CreateReq)
    (mid : Nat) (s : GatewayState) (hw : 0 < windowMinutes)
    (hs : truthy req.sender_id = true) (hg : truthy req.group_id = true)
    (hm : truthy req.message = true) :
    ((messageCreate windowMinutes now req mid s).1 = CreateOutcome.duplicate ↔
      ∃ m ∈ s.messages, m.sender_id = req.sender_id ∧ m.group_id = req.group_id ∧
        some m.message = req.message ∧
        now - windowMinutes * msPerMinute ≤ m.message_date) ∧
    ((messageCreate windowMinutes now req mid s).1 ≠ CreateOutcome.duplicate →
      ∃ doc, (messageCreate windowMinutes now req mid s).1 = CreateOutcome.created doc ∧
        (messageCreate windowMinutes now req mid s).2.messages = s.messages ++ [doc]) := by
  have hmax : max windowMinutes 0 = windowMinutes := max_eq_left hw.le
  have hkey : (messageCreate windowMinutes now req mid s).1 = CreateOutcome.duplicate ↔
      isSpamDuplicate req (now - windowMinutes * msPerMinute) s.messages = true := by
    by_cases hdup :
        isSpamDuplicate req (now - windowMinutes * msPerMinute) s.messages = true
    · simp [messageCreate, hmax, hs, hg, hm, hw, hdup]
    · simp [messageCreate, hmax, hs, hg, hm, hw, hdup]
  constructor
  · rw [hkey, isSpamDuplicate, List.any_eq_true]
    constructor
    · rintro ⟨m, hmem, hprop⟩
      exact ⟨m, hmem, by simpa using hprop⟩
    · rintro ⟨m, hmem, hprop⟩
      exact ⟨m, hmem, by simpa using hprop⟩
  · intro hnd
    have hdup : isSpamDuplicate req (now - windowMinutes * msPerMinute) s.messages = false :=
      Bool.eq_false_iff.mpr (fun hc => hnd (hkey.mpr hc))
    simp only [messageCreate, hmax, hdup, Bool.false_eq_true, and_false, if_false,
      ite_false]
    exact ⟨_, rfl, rfl⟩

/-- Witness for C9: a second identical submission from the same sender and
group inside the window is rejected as a duplicate. -/
theorem ingest_duplicate_iff_witness :
    ((messageCreate 60 1000000
        ⟨78, some "u1", some "alice", some "g1", some "lfg squad", 999500⟩ 9
        ⟨[], [raceMsg], []⟩).1 = CreateOutcome.duplicate ↔
      ∃ m ∈ [raceMsg], m.sender_id = some "u1" ∧ m.group_id = some "g1" ∧
        some m.message = some "lfg squad" ∧
        (1000000 : Int) - 60 * msPerMinute ≤ m.message_date) ∧
    ((messageCreate 60 1000000
        ⟨78, some "u1", some "alice", some "g1", some "lfg squad", 999500⟩ 9
        ⟨[], [raceMsg], []⟩).1 ≠ CreateOutcome.duplicate →
      ∃ doc, (messageCreate 60 1000000
          ⟨78, some "u1", some "alice", some "g1", some "lfg squad", 999500⟩ 9
          ⟨[], [raceMsg], []⟩).1 = CreateOutcome.created doc ∧
        (messageCreate 60 1000000
            ⟨78, some "u1", some "alice", some "g1", some "lfg squad", 999500⟩ 9
            ⟨[], [raceMsg], []⟩).2.messages = [raceMsg] ++ [doc]) :=
  ingest_duplicate_iff 60 1000000
    ⟨78, some "u1", some "alice", some "g1", some "lfg squad", 999500⟩ 9
    ⟨[], [raceMsg], []⟩ (by decide) (by decide) (by decide) (by decide)

/-- Per-document steps of the core keep the storage key. -/
theorem getPendingExpireStep_mid (c : Int) (m : Msg) :
    (getPendingExpireStep c m).mid = m.mid := by
  unfold getPendingExpireStep
  split <;> rfl

/-- The claim updateMany step keeps the storage key. -/
theorem markProcessingStep_mid (ids : List Nat) (m : Msg) :
    (markProcessingStep ids m).mid = m.mid := by
  unfold markProcessingStep
  split <;> rfl

/-- The requeue sweep step keeps the storage key. -/
theorem requeueStep_mid (c : Int) (m : Msg) : (requeueStep c m).mid = m.mid := by
  unfold requeueStep
  split <;> rfl

/-- The auto-expiry step keeps the storage key. -/
theorem expireStep_mid (c now : Int) (m : Msg) : (expireStep c now m).mid = m.mid := by
  unfold expireStep
  split <;> rfl

/-- The cascade step keeps the storage key. -/
theorem cascadeMsgStep_mid (u : String) (un : Option String) (m : Msg) :
    (cascadeMsgStep u un m).mid = m.mid := by
  unfold cascadeMsgStep
  split <;> rfl

/-- A document the per-document step leaves unchanged is still found intact,
by its storage key, after a bulk update — provided the collection's keys are
unique (Mongo's _id uniqueness). -/
theorem find_map_of_fixed (f : Msg → Msg) (hf : ∀ x, (f x).mid = x.mid)
    (msgs : List Msg) (m : Msg)
    (hnd : (msgs.map (fun x => x.mid)).Nodup)
    (hm : m ∈ msgs) (hfix : f m = m) :
    (msgs.map f).find? (fun x => decide (x.mid = m.mid)) = some m := by
  induction msgs with
  | nil => simp at hm
  | cons a l ih =>
    simp only [List.map_cons] at hnd ⊢
    obtain ⟨hna, hndl⟩ := List.nodup_cons.mp hnd
    by_cases ha : a.mid = m.mid
    · have ham : a = m := by
        rcases List.mem_cons.mp hm with h | h
        · exact h.symm
        · exact absurd (ha ▸ List.mem_map_of_mem (fun x => x.mid) h) hna
      rw [List.find?_cons_of_pos _ (by simp [hf, ha])]
      rw [ham, hfix]
    · have hml : m ∈ l := by
        rcases List.mem_cons.mp hm with h | h
        · exact absurd (h ▸ ha) (fun hne => hne rfl)
        · exact h
      rw [List.find?_cons_of_neg _ (by simp [hf, ha])]
      exact ih hndl hml

/-- A non-pending document's key is never among the ids the claim find
selects: the candidate filter requires status pending. -/
theorem mid_not_in_find_ids (cfg : AutoExpiryConfig) (now : Int) (k : Nat)
    (s1 : List Msg) (m : Msg)
    (hnd1 : (s1.map (fun x => x.mid)).Nodup) (hm : m ∈ s1)
    (hnp : m.ai_status ≠ AIStatus.pending) :
    m.mid ∉ (getPendingFind cfg now k s1).map (fun x => x.mid) := by
  intro hc
  obtain ⟨c, hc1, hc2⟩ := List.mem_map.mp hc
  have hcf : c ∈ s1.filter (fun x => decide (x.ai_status = AIStatus.pending ∧
      getPendingThreshold cfg now ≤ x.message_date)) :=
    (List.perm_insertionSort dateLE _).subset (List.take_subset _ _ hc1)
  obtain ⟨hcs, hcp⟩ := List.mem_filter.mp hcf
  have hcp2 := of_decide_eq_true hcp
  have hcm : c = m := List.inj_on_of_nodup_map hnd1 hcs hm hc2
  exact hnp (hcm ▸ hcp2.1)

/-- Claim updateMany after a candidate find leaves every non-pending
document of the scanned collection intact. -/
theorem markProcessing_find_of_nonpending (cfg : AutoExpiryConfig) (now : Int)
    (k : Nat) (s1 : List Msg) (m : Msg)
    (hnd1 : (s1.map (fun x => x.mid)).Nodup)
    (hm : m ∈ s1) (hnp : m.ai_status ≠ AIStatus.pending) :
    (markProcessing ((getPendingFind cfg now k s1).map (fun x => x.mid)) s1).find?
      (fun x => decide (x.mid = m.mid)) = some m := by
  have hnotin := mid_not_in_find_ids cfg now k s1 m hnd1 hm hnp
  refine find_map_of_fixed _ (markProcessingStep_mid _) s1 m hnd1 hm ?_
  unfold markProcessingStep
  rw [if_neg hnotin]

/-- C7 counterexample: doneMsg is completed (terminal), yet the worker's
outcome-update path moves it to processing — updateByMessageId is not
conditioned on the current status, so a terminal status is not stable under
it. -/
theorem terminal_overwritten_by_update :
    doneMsg.ai_status.isTerminal = true ∧
    ((updateByMessageId 7 ⟨some AIStatus.processing, none, none⟩ [doneMsg]).2.map
        (fun m => m.ai_status) = [AIStatus.processing]) ∧
    AIStatus.processing.isTerminal = false := by decide

/-- C7 amended: Claim (getPending), the requeue sweep, the auto-expiry sweep
and the cancellation cascade never move a message out of a terminal status:
when storage keys are unique, a terminal document is found unchanged, by its
key, after each of these operations. The worker's outcome update
(updateByMessageId) is excluded from the invariant: it is unconditioned and
can overwrite a terminal status. -/
theorem terminal_stability_amended (cfg : AutoExpiryConfig)
    (expiryMinutes timeoutMinutes now : Int) (limit : Nat)
    (user_id : String) (username : Option String)
    (cus : List CanceledUser) (ps : List Player) (msgs : List Msg)
    (hnd : (msgs.map (fun x => x.mid)).Nodup) :
    ∀ m ∈ msgs, m.ai_status.isTerminal = true →
      ((getPending cfg now limit msgs).state.find?
          (fun x => decide (x.mid = m.mid)) = some m) ∧
      ((requeueRunOnce timeoutMinutes now msgs).find?
          (fun x => decide (x.mid = m.mid)) = some m) ∧
      ((expireOldMessages true expiryMinutes now msgs).find?
          (fun x => decide (x.mid = m.mid)) = some m) ∧
      ((cancelCreate user_id username ⟨cus, msgs, ps⟩).messages.find?
          (fun x => decide (x.mid = m.mid)) = some m) := by
  intro m hm hterm
  have hnp : m.ai_status ≠ AIStatus.pending := fun h => by
    rw [h] at hterm
    exact absurd hterm (by decide)
  have hnpp : m.ai_status ≠ AIStatus.pending_prefilter := fun h => by
    rw [h] at hterm
    exact absurd hterm (by decide)
  have hnproc : m.ai_status ≠ AIStatus.processing := fun h => by
    rw [h] at hterm
    exact absurd hterm (by decide)
  have hbase : msgs.find? (fun x => decide (x.mid = m.mid)) = some m := by
    have h := find_map_of_fixed id (fun x => rfl) msgs m hnd hm rfl
    simpa using h
  refine ⟨?_, ?_, ?_, ?_⟩
  · have hstate : (getPending cfg now limit msgs).state =
        markProcessing ((getPendingFind cfg now (min limit 100)
          (getPendingExpirePhase cfg now msgs)).map (fun x => x.mid))
          (getPendingExpirePhase cfg now msgs) := rfl
    rw [hstate]
    by_cases hen : cfg.enabled = true
    · have hs1 : getPendingExpirePhase cfg now msgs =
          msgs.map (getPendingExpireStep (expiryCutoff cfg.expiryMinutes now)) := by
        simp [getPendingExpirePhase, hen]
      have hem : getPendingExpireStep (expiryCutoff cfg.expiryMinutes now) m = m := by
        unfold getPendingExpireStep
        rw [if_neg]
        rintro ⟨h1, _⟩
        exact hnp h1
      have hmid1 : (getPendingExpirePhase cfg now msgs).map (fun x => x.mid) =
          msgs.map (fun x => x.mid) := by
        rw [hs1, List.map_map]
        exact List.map_congr_left (fun x _ => getPendingExpireStep_mid _ x)
      have hnd1 : ((getPendingExpirePhase cfg now msgs).map (fun x => x.mid)).Nodup := by
        rw [hmid1]
        exact hnd
      have hms1 : m ∈ getPendingExpirePhase cfg now msgs := by
        rw [hs1]
        have h := List.mem_map_of_mem
          (getPendingExpireStep (expiryCutoff cfg.expiryMinutes now)) hm
        rwa [hem] at h
      exact markProcessing_find_of_nonpending cfg now (min limit 100)
        (getPendingExpirePhase cfg now msgs) m hnd1 hms1 hnp
    · have hs1 : getPendingExpirePhase cfg now msgs = msgs := by
        simp [getPendingExpirePhase, hen]
      rw [hs1]
      exact markProcessing_find_of_nonpending cfg now (min limit 100) msgs m hnd hm hnp
  · refine find_map_of_fixed _ (requeueStep_mid _) msgs m hnd hm ?_
    unfold requeueStep
    rw [if_neg]
    rintro ⟨h1, _⟩
    exact hnproc h1
  · have hsweep : expireOldMessages true expiryMinutes now msgs =
        msgs.map (expireStep (expiryCutoff expiryMinutes now) now) := by
      simp [expireOldMessages]
    rw [hsweep]
    refine find_map_of_fixed _ (expireStep_mid _ _) msgs m hnd hm ?_
    unfold expireStep
    rw [if_neg]
    rintro ⟨h1 | h1, _⟩
    · exact hnp h1
    · exact hnproc h1
  · unfold cancelCreate
    split
    · exact hbase
    · refine find_map_of_fixed _ (cascadeMsgStep_mid user_id username) msgs m hnd hm ?_
      unfold cascadeMsgStep
      rw [if_neg]
      rintro ⟨h1 | h1, _⟩
      · exact hnp h1
      · exact hnpp h1

/-- Witness for C7 amended: the completed message doneMsg survives all four
operations untouched in a two-message collection. -/
theorem terminal_stability_amended_witness :
    ((getPending ⟨true, 5⟩ 1000000 10 [doneMsg, raceMsg]).state.find?
        (fun x => decide (x.mid = doneMsg.mid)) = some doneMsg) ∧
    ((requeueRunOnce 5 1000000 [doneMsg, raceMsg]).find?
        (fun x => decide (x.mid = doneMsg.mid)) = some doneMsg) ∧
    ((expireOldMessages true 5 1000000 [doneMsg, raceMsg]).find?
        (fun x => decide (x.mid = doneMsg.mid)) = some doneMsg) ∧
    ((cancelCreate "u1" (some "alice")
        ⟨[], [doneMsg, raceMsg], []⟩).messages.find?
        (fun x => decide (x.mid = doneMsg.mid)) = some doneMsg) :=
  terminal_stability_amended ⟨true, 5⟩ 5 5 1000000 10 "u1" (some "alice") [] []
    [doneMsg, raceMsg] (by decide) doneMsg (by decide) (by decide)

/-- Witness for C3 amended: the update of a failed outcome is applied to the
requeued (pending, hence non-processing) message lateMsg. -/
theorem update_by_message_id_unconditional_witness :
    ((updateByMessageId 42 ⟨some AIStatus.failed, none, none⟩ [lateMsg]).1 =
      some (applyUpdate ⟨some AIStatus.failed, none, none⟩ lateMsg)) ∧
    ∃ l1 l2, [lateMsg] = l1 ++ lateMsg :: l2 ∧
      (updateByMessageId 42 ⟨some AIStatus.failed, none, none⟩ [lateMsg]).2 =
        l1 ++ applyUpdate ⟨some AIStatus.failed, none, none⟩ lateMsg :: l2 :=
  update_by_message_id_unconditional 42 ⟨some AIStatus.failed, none, none⟩
    [lateMsg] lateMsg (by decide)

end Gateway
